/-
Verification of the FollowPath animation library (src/unnamed/part_001, the
current TypeScript source; src/index.d.ts is its declaration file).

The embedding models JS numbers as rationals (ℚ), the DOM/SVG collaborators
(element, path, scheduler) at their interface boundary, and callback
invocations as an explicit event trace.  State mutation is explicit state
passing over `FPState`, the fields of one `FollowPath` instance.
-/
import Mathlib

namespace FollowPath

/-- Observable effects of a run: a timeline threshold callback firing,
the completion callback firing, and a render (the argument is the arc
length passed to `path.getPointAtLength` for the element's position). -/
inductive Event where
  | timelineFired : ℚ → Event
  | completion : Event
  | rendered : ℚ → Event
  deriving DecidableEq, Repr

/-- JS truncation toward zero, as used by the JS `%` operator. -/
def jsTrunc (q : ℚ) : ℤ := if 0 ≤ q then ⌊q⌋ else ⌈q⌉

/-- The JS remainder operator `a % b` (sign follows the dividend). -/
def jsMod (a b : ℚ) : ℚ := a - b * (jsTrunc (a / b) : ℚ)

/-- `#exceedEasingModes['clamp']` (part_001 line 30): `(_) => 1`. -/
def exceedClamp (_ : ℚ) : ℚ := 1

/-- `#exceedEasingModes['loop']` (part_001 line 31):
`(t) => t > 1 ? t % 1 : 1 - (t % 1)`. -/
def exceedLoop (t : ℚ) : ℚ := if t > 1 then jsMod t 1 else 1 - jsMod t 1

/-- `#exceedEasingModes['pingpong']` (part_001 line 32):
`(t) => t > 1 ? 1 - (t % 1) : -(t % 1)`. -/
def exceedPingpong (t : ℚ) : ℚ := if t > 1 then 1 - jsMod t 1 else -(jsMod t 1)

/-- The `ease` closure in `animate` (part_001 lines 132-136):
`easedLength = totalLength * easing(length / totalLength)`, and the exceed
easing (overflow policy) is applied to `easedLength` itself whenever it
falls outside `[0, totalLength]`; otherwise `easedLength` is returned. -/
def easeLen (easing exceed : ℚ → ℚ) (totalLength length : ℚ) : ℚ :=
  let easedLength := totalLength * easing (length / totalLength)
  if easedLength > totalLength ∨ easedLength < 0 then exceed easedLength else easedLength

/-- The mutable fields of one `FollowPath` instance (part_001 lines 21-52)
together with the locals of an active `animate` call that persist across
animator ticks (`prevTime`, `pixelsPerMs`, `currentLength`, captured by the
`animator` closure).  `timelineSorted` is `#timelineSorted`: the numeric
timeline thresholds sorted in descending order, `none` when no timeline was
configured.  Truthiness of `this.path` / `this.#element` is `hasPath` /
`hasElement`; the presence of `this.callback` is `hasCallback`. -/
structure FPState where
  privateIterations : ℚ
  iterations : ℚ
  stopAll : Bool
  timelineSorted : Option (List ℚ)
  hasCallback : Bool
  duration : ℚ
  totalLength : ℚ
  currentLength : ℚ
  pixelsPerMs : ℚ
  prevTime : Option ℚ
  fps : Option ℚ
  delay : Option ℚ
  hasPath : Bool
  hasElement : Bool
  deriving DecidableEq, Repr

/-- `getProgress()` (part_001 lines 240-242):
`(this.iterations / this.#privateIterations) * 100`. -/
def getProgress (s : FPState) : ℚ :=
  s.iterations / s.privateIterations * 100

/-- `setProgress(percentage)` (part_001 lines 248-250):
`this.iterations = (percentage * this.#privateIterations) / 100`. -/
def setProgress (s : FPState) (percentage : ℚ) : FPState :=
  { s with iterations := percentage * s.privateIterations / 100 }

/-- `getCurrentIterationProgress()` (part_001 lines 257-259):
`(this.#privateIterations - Math.floor(this.#privateIterations)) * 100`.
Note that the source reads the private iteration target, not the live
counter `this.iterations`. -/
def getCurrentIterationProgress (s : FPState) : ℚ :=
  (s.privateIterations - (⌊s.privateIterations⌋ : ℚ)) * 100

/-- `setCurrentIterationProgress(percentage)` (part_001 lines 265-267). -/
def setCurrentIterationProgress (s : FPState) (percentage : ℚ) : FPState :=
  { s with iterations := (⌊s.iterations⌋ : ℚ) + percentage / 100 }

/-- `stop()` (part_001 lines 231-234): sets `#stopAll` and zeroes the public
live counter `this.iterations`.  (`#privateIterations` is untouched.) -/
def stop (s : FPState) : FPState :=
  { s with stopAll := true, iterations := 0 }

/-- `pause()` (part_001 lines 224-226): sets `#stopAll` only. -/
def pause (s : FPState) : FPState :=
  { s with stopAll := true }

/-- The timeline-dispatch `while` loop of `animator` (part_001 lines
172-177), phrased over the ascending reversal of `#timelineSorted`: the JS
code repeatedly pops the **last** element of the descending-sorted pending
list while `cumPercent >= sorted[sorted.length - 1]` (an empty list makes
the comparison with `undefined` false) and calls the popped threshold's
callback only when the popped value is truthy — so a popped `0` is skipped.
Popping from the tail of the descending list is popping from the head of
its reversal, which is what this function recurses on. -/
def dispatchAsc (cumPercent : ℚ) : List ℚ → List ℚ × List Event
  | [] => ([], [])
  | t :: rest =>
      if cumPercent ≥ t then
        let r := dispatchAsc cumPercent rest
        (r.1, (if t ≠ 0 then [Event.timelineFired t] else []) ++ r.2)
      else (t :: rest, [])

/-- One invocation of the timeline dispatch on the descending pending list:
the remaining pending list (still descending) and the fired events, in the
order the JS loop fires them (smallest threshold first). -/
def dispatchTimeline (cumPercent : ℚ) (l : List ℚ) : List ℚ × List Event :=
  let r := dispatchAsc cumPercent l.reverse
  (r.1.reverse, r.2)

/-- The thresholds carried by the `timelineFired` events of a trace. -/
def firedVals (evs : List Event) : List ℚ :=
  evs.filterMap fun e => match e with
    | Event.timelineFired t => some t
    | _ => none

/-- What the animator does after a tick: nothing (`halt`), schedule itself
via `requestAnimationFrame(animator)` (`frame`), or schedule a re-entry
`this.animate({ iterNumber })` at the iteration boundary, possibly behind
the `delay` timer (`reanimate`). -/
inductive StepNext where
  | halt : StepNext
  | frame : StepNext
  | reanimate : ℚ → StepNext
  deriving DecidableEq, Repr

/-- One invocation of the `animator` closure (part_001 lines 145-199) at
wall-clock time `now`.  Returns the new state, the events emitted during
the tick, and what was scheduled next. -/
def animatorStep (easing exceed : ℚ → ℚ) (s : FPState) (now : ℚ) :
    FPState × List Event × StepNext :=
  -- line 146: iterNumber = this.iterations
  let iterNumber := s.iterations
  -- lines 149-153: stop the animation if interrupted, or target reached
  if s.stopAll = true ∨ iterNumber ≥ s.privateIterations then
    ({ s with fps := none },
     if s.stopAll = false ∧ s.hasCallback = true then [Event.completion] else [],
     StepNext.halt)
  -- lines 156-162: iteration completed, re-enter animate (delay or not)
  else if s.currentLength ≥ s.totalLength then
    (s, [],
     if iterNumber ≤ s.privateIterations then StepNext.reanimate iterNumber
     else StepNext.halt)
  else
    -- lines 165-169: measured frame time updates fps and pixelsPerMs
    let fps2 : Option ℚ := match s.prevTime with
      | some t => some (1000 / (now - t))
      | none => s.fps
    let pixelsPerMs2 : ℚ := match s.prevTime with
      | some t => (s.totalLength / s.duration) * (now - t)
      | none => s.pixelsPerMs
    -- lines 172-177: timeline dispatch on the pending sorted thresholds
    let tl : Option (List ℚ) × List Event := match s.timelineSorted with
      | some l =>
          let r := dispatchTimeline (iterNumber / s.privateIterations * 100) l
          (some r.1, r.2)
      | none => (none, [])
    -- lines 181-192: sample the path at ease(currentLength) and render
    let renderLen := easeLen easing exceed s.totalLength s.currentLength
    -- lines 193-198: advance, record the frame time, reschedule
    ({ s with fps := fps2, pixelsPerMs := pixelsPerMs2,
              timelineSorted := tl.1,
              currentLength := s.currentLength + pixelsPerMs2,
              iterations := iterNumber + pixelsPerMs2 / s.totalLength,
              prevTime := some now },
     tl.2 ++ [Event.rendered renderLen],
     StepNext.frame)

/-- The entry logic of `animate({ iterNumber, singleFrame })` (part_001
lines 115-143 and 201-202) at wall-clock time `now`.  (`singleFrame` is
destructured by the source but never used.)  Errors model the thrown
runtime error (line 116-118).  The boolean records whether the animator
loop was scheduled via `requestAnimationFrame`. -/
def animateEntry (s : FPState) (iterNumber : ℚ) (now : ℚ) :
    Except String (FPState × List Event × Bool) :=
  if s.hasPath = false ∨ s.hasElement = false ∨ s.duration = 0 then
    Except.error "Runtime Error (FollowPath): not specified."
  else
    -- line 120: `if (!iterNumber) iterNumber = 0` is the identity on numbers
    -- line 122: this.fps = undefined
    -- lines 126-130: degenerate target, immediate completion when a callback exists
    if (s.privateIterations ≤ 0 ∨ iterNumber > s.privateIterations) ∧ s.hasCallback = true then
      Except.ok ({ s with fps := none }, [Event.completion], false)
    else
      let startPos := iterNumber - (⌊iterNumber⌋ : ℚ)
      -- line 140: this.fps was just set to undefined, so (this.fps || 60) = 60
      let fps0 : Option ℚ := none
      let pixelsPerMs := s.totalLength / s.duration * (1 / fps0.getD 60)
      Except.ok
        ({ s with fps := none,
                  iterations := iterNumber,
                  currentLength := s.totalLength * startPos,
                  pixelsPerMs := pixelsPerMs,
                  prevTime := some now },
         [], true)

/-- The state `animate` (part_001 lines 132-143, 201) leaves behind when it
proceeds into the tick loop: counters initialized from `iterNumber`, the
`1/60`-based initial `pixelsPerMs`, and the entry timestamp recorded. -/
def entryRunState (s : FPState) (iterNumber now : ℚ) : FPState :=
  { s with fps := none,
           iterations := iterNumber,
           currentLength := s.totalLength * (iterNumber - (⌊iterNumber⌋ : ℚ)),
           pixelsPerMs := s.totalLength / s.duration * (1 / (60 : ℚ)),
           prevTime := some now }

/-- Projects the state out of an `animateEntry` result (default on error). -/
def entryState (d : FPState) (r : Except String (FPState × List Event × Bool)) : FPState :=
  match r with
  | Except.ok (s, _, _) => s
  | Except.error _ => d

/-- Projects the events out of an `animateEntry` result. -/
def entryEvents (r : Except String (FPState × List Event × Bool)) : List Event :=
  match r with
  | Except.ok (_, evs, _) => evs
  | Except.error _ => []

/-- Whether an `animateEntry` result scheduled the animator loop. -/
def entryScheduled (r : Except String (FPState × List Event × Bool)) : Bool :=
  match r with
  | Except.ok (_, _, b) => b
  | Except.error _ => false

/-- The callback currently sitting in the host scheduler for one instance:
the `animator` closure, a pending `() => this.animate({ iterNumber })`
re-entry, or nothing. -/
inductive Pending where
  | animator : Pending
  | animateCall : ℚ → Pending
  | idle : Pending
  deriving DecidableEq, Repr

/-- One instance plus its scheduler slot. -/
structure Sys where
  st : FPState
  pending : Pending
  deriving DecidableEq, Repr

/-- External stimuli over a controller lifetime: the scheduler firing the
pending callback at wall-clock time `now`, or the user calling `stop()`,
`pause()`, or `play()` (which runs at time `now`, since `play` immediately
calls `animate`). -/
inductive Input where
  | tick : ℚ → Input
  | stopCall : Input
  | pauseCall : Input
  | playCall : ℚ → Input
  deriving DecidableEq, Repr

/-- One transition of the instance-with-scheduler system. -/
def sysStep (easing exceed : ℚ → ℚ) (sys : Sys) (i : Input) : Sys × List Event :=
  match i with
  | Input.stopCall => ({ sys with st := stop sys.st }, [])
  | Input.pauseCall => ({ sys with st := pause sys.st }, [])
  | Input.playCall now =>
      -- play() (part_001 lines 216-219): clear #stopAll, animate from this.iterations
      let s1 := { sys.st with stopAll := false }
      match animateEntry s1 s1.iterations now with
      | Except.error _ => ({ st := s1, pending := Pending.idle }, [])
      | Except.ok (s2, evs, sched) =>
          ({ st := s2, pending := if sched then Pending.animator else Pending.idle }, evs)
  | Input.tick now =>
      match sys.pending with
      | Pending.idle => (sys, [])
      | Pending.animator =>
          let r := animatorStep easing exceed sys.st now
          ({ st := r.1,
             pending := match r.2.2 with
               | StepNext.halt => Pending.idle
               | StepNext.frame => Pending.animator
               | StepNext.reanimate n => Pending.animateCall n },
           r.2.1)
      | Pending.animateCall n =>
          match animateEntry sys.st n now with
          | Except.error _ => ({ sys with pending := Pending.idle }, [])
          | Except.ok (s2, evs, sched) =>
              ({ st := s2, pending := if sched then Pending.animator else Pending.idle }, evs)

/-- The event trace of a whole lifetime under a stimulus sequence. -/
def runSys (easing exceed : ℚ → ℚ) : Sys → List Input → List Event
  | _, [] => []
  | sys, i :: ins =>
      let r := sysStep easing exceed sys i
      r.2 ++ runSys easing exceed r.1 ins

/-- A JS value slot as the validator distinguishes it: absent (`undefined`),
present with the expected type (`ok`), or present but failing the type
check (wrong `typeof`, or `NaN` for the numeric fields). -/
inductive JSVal (α : Type) where
  | undef : JSVal α
  | ok : α → JSVal α
  | bad : JSVal α

/-- The recognized `mode` values (part_001 line 16): one of the three
keywords of `#exceedEasingModes`, or a custom function. -/
inductive FPMode where
  | clamp : FPMode
  | loop : FPMode
  | pingpong : FPMode
  | custom : (ℚ → ℚ) → FPMode

/-- The `#exceedEasing` selection in the constructor (part_001 line 94):
`typeof mode === 'function' ? mode : mode && includes(mode) ?
modes[mode] : modes['clamp']`. -/
def exceedOf : JSVal FPMode → (ℚ → ℚ)
  | JSVal.ok (FPMode.custom f) => f
  | JSVal.ok FPMode.clamp => exceedClamp
  | JSVal.ok FPMode.loop => exceedLoop
  | JSVal.ok FPMode.pingpong => exceedPingpong
  | _ => exceedClamp

/-- The timeline-key pattern `/^(\d{1,3})%$/` (part_001 line 295). -/
def isValidTimelineKey (k : String) : Bool :=
  let cs := k.toList
  decide (2 ≤ cs.length) && decide (cs.length ≤ 4) &&
  cs.dropLast.all (fun ch => ch.isDigit) &&
  decide (cs.getLast? = some (Char.ofNat 37))

/-- The configuration object as seen by `#validateConfig`; a timeline entry
is a key string together with whether its value is a function. -/
structure FollowPathConfig where
  element : Bool
  path : Bool
  duration : JSVal ℚ
  iterations : JSVal ℚ
  easing : JSVal (ℚ → ℚ)
  mode : JSVal FPMode
  delay : JSVal ℚ
  toScale : JSVal Bool
  rotate : JSVal Bool
  callback : JSVal Unit
  timeline : JSVal (List (String × Bool))

/-- `#validateConfig` (part_001 lines 269-301), clause by clause.  The
`typeof easing !== 'function'` test (line 283) is not guarded by the field
being present, so an omitted `easing` also fails it. -/
def validateConfig (c : FollowPathConfig) : Bool :=
  if (match c.duration with | JSVal.ok _ => false | _ => true)
      || !c.path || !c.element
      || (match c.iterations with | JSVal.ok _ => false | _ => true)
      || (match c.easing with | JSVal.ok _ => false | _ => true)
      || (match c.mode with | JSVal.bad => true | _ => false) then false
  else if (match c.delay with | JSVal.bad => true | _ => false) then false
  else if (match c.toScale with | JSVal.bad => true | _ => false) then false
  else if (match c.rotate with | JSVal.bad => true | _ => false) then false
  else if (match c.callback with | JSVal.bad => true | _ => false) then false
  else match c.timeline with
    | JSVal.bad => false
    | JSVal.undef => true
    | JSVal.ok entries => entries.all fun e => isValidTimelineKey e.1 && e.2

/-- `Number(key.slice(0, key.length - 1))` for a validated timeline key
(all-digit prefix, so `toNat?` succeeds; the default is unreachable). -/
def timelineKeyNumber (k : String) : ℚ :=
  ((k.dropRight 1).toNat?.getD 0 : ℚ)

/-- `#timelineSorted` construction (part_001 line 103): numeric key values
sorted in descending order (`.sort((a, b) => b - a)`). -/
def timelineSortedOf (keys : List String) : List ℚ :=
  (keys.map timelineKeyNumber).mergeSort (fun a b => b ≤ a)

/-- The constructor (part_001 lines 76-105), restricted to the pieces the
claims are about: validation (with the thrown `Invalid Config.` error),
the easing default `easing || ((t) => t)` (line 93), and the
`#exceedEasing` selection (line 94). -/
def construct (c : FollowPathConfig) : Except String ((ℚ → ℚ) × (ℚ → ℚ)) :=
  if validateConfig c then
    Except.ok
      ((match c.easing with | JSVal.ok f => f | _ => fun t => t),
       exceedOf c.mode)
  else Except.error "Invalid Config."

/-- Successive timeline dispatches, one per animator tick, over a sequence
of cumulative-percent values: the final pending list and each tick's fired
events. -/
def dispatchRunPer : List ℚ → List ℚ → List ℚ × List (List Event)
  | l, [] => (l, [])
  | l, c :: cs =>
      let r1 := dispatchTimeline c l
      let r2 := dispatchRunPer r1.1 cs
      (r2.1, r1.2 :: r2.2)

/-- The index of the first cumulative-percent value reaching or exceeding a
threshold. -/
def firstCross (t : ℚ) : List ℚ → Option ℕ
  | [] => none
  | c :: cs => if t ≤ c then some 0 else (firstCross t cs).map (· + 1)

/-- The thresholds fired at tick `i` of a dispatch sequence. -/
def firedAt (l cs : List ℚ) (i : ℕ) : List ℚ :=
  firedVals ((dispatchRunPer l cs).2.getD i [])

/-! ### Concrete instances used by counterexamples and witnesses -/

/-- A plainly-configured instance: `duration = 1000`, curve length `100`,
one iteration, no timeline, no callback, fresh counters. -/
def baseState : FPState :=
  { privateIterations := 1, iterations := 0, stopAll := false,
    timelineSorted := none, hasCallback := false, duration := 1000,
    totalLength := 100, currentLength := 0, pixelsPerMs := 1 / 600,
    prevTime := none, fps := none, delay := none,
    hasPath := true, hasElement := true }

/-- An instance configured with `timeline = 0 mapped...`, i.e. pending
thresholds `[0]`, a completion callback, `duration = 100`, mid-`animate`
(frame timestamp recorded at time `0`). -/
def c1CexState : FPState :=
  { baseState with duration := 100, timelineSorted := some [0],
                   hasCallback := true, prevTime := some 0, pixelsPerMs := 1 / 60 }

/-- An instance constructed with `iterations = 0` (accepted by
`#validateConfig`, which only requires a non-`NaN` number). -/
def c3ZeroState : FPState :=
  { baseState with privateIterations := 0 }

/-- A stopped instance with `iterations = 4`. -/
def c3StoppedState : FPState :=
  { baseState with privateIterations := 4, stopAll := true }

/-- An instance with `iterations = 4`. -/
def c4State : FPState :=
  { baseState with privateIterations := 4 }

/-- A mid-run instance: target `2` iterations, live counter `1.5`,
completion callback present. -/
def c5State : FPState :=
  { baseState with privateIterations := 2, iterations := 3 / 2, hasCallback := true }

/-- An instance whose live counter has just reached the target. -/
def c5DoneState : FPState :=
  { baseState with privateIterations := 2, iterations := 2, hasCallback := true }

/-- An instance constructed with `iterations = 0` and no completion
callback. -/
def c6CexState : FPState :=
  { baseState with privateIterations := 0 }

/-- A mid-run instance: target `2` iterations, live counter `1.3`. -/
def c7State : FPState :=
  { baseState with privateIterations := 2, iterations := 13 / 10 }

/-- An instance with curve length `60000` and `duration = 1000` ms, about
to start a run. -/
def c9EntryState : FPState :=
  { baseState with totalLength := 60000 }

/-- A running instance (`duration = 100` ms, curve length `100`, target
`10`) whose previous frame timestamp is `0`. -/
def c9RunState : FPState :=
  { baseState with privateIterations := 10, duration := 100, prevTime := some 0 }

/-- A configuration whose fields all pass their individual checks, with
`easing` omitted (`undefined`). -/
def c8Config : FollowPathConfig :=
  { element := true, path := true, duration := JSVal.ok 1000,
    iterations := JSVal.ok 1, easing := JSVal.undef, mode := JSVal.undef,
    delay := JSVal.undef, toScale := JSVal.undef, rotate := JSVal.undef,
    callback := JSVal.undef, timeline := JSVal.undef }

/-! ### Dispatcher lemmas -/

lemma firedVals_append (xs ys : List Event) :
    firedVals (xs ++ ys) = firedVals xs ++ firedVals ys := by
  simp [firedVals]

lemma dispatchAsc_cons_ne (c t : ℚ) (rest : List ℚ) (h : c ≥ t) (h0 : t ≠ 0) :
    dispatchAsc c (t :: rest)
      = ((dispatchAsc c rest).1, Event.timelineFired t :: (dispatchAsc c rest).2) := by
  simp [dispatchAsc, h, h0]

lemma dispatchAsc_cons_zero (c : ℚ) (rest : List ℚ) (h : c ≥ 0) :
    dispatchAsc c ((0 : ℚ) :: rest)
      = ((dispatchAsc c rest).1, (dispatchAsc c rest).2) := by
  simp [dispatchAsc, h]

lemma dispatchAsc_cons_neg (c t : ℚ) (rest : List ℚ) (h : ¬ c ≥ t) :
    dispatchAsc c (t :: rest) = (t :: rest, []) := by
  simp [dispatchAsc, h]

lemma dispatchAsc_fst (c : ℚ) (ls : List ℚ) :
    (dispatchAsc c ls).1 = ls.dropWhile fun t => decide (c ≥ t) := by
  induction ls with
  | nil => rfl
  | cons t rest ih =>
      by_cases h : c ≥ t
      · rw [List.dropWhile_cons, if_pos (by simpa using h)]
        by_cases h0 : t = 0
        · subst h0
          rw [dispatchAsc_cons_zero c rest h]
          exact ih
        · rw [dispatchAsc_cons_ne c t rest h h0]
          exact ih
      · rw [dispatchAsc_cons_neg c t rest h, List.dropWhile_cons,
          if_neg (by simpa using h)]

lemma dispatchAsc_firedVals (c : ℚ) (ls : List ℚ) :
    firedVals (dispatchAsc c ls).2
      = (ls.takeWhile fun t => decide (c ≥ t)).filter fun t => decide (t ≠ 0) := by
  induction ls with
  | nil => rfl
  | cons t rest ih =>
      by_cases h : c ≥ t
      · rw [List.takeWhile_cons, if_pos (by simpa using h), List.filter_cons]
        by_cases h0 : t = 0
        · subst h0
          rw [dispatchAsc_cons_zero c rest h, if_neg (by simp)]
          exact ih
        · rw [dispatchAsc_cons_ne c t rest h h0, if_pos (by simpa using h0)]
          show firedVals (Event.timelineFired t :: (dispatchAsc c rest).2) = _
          have hv : firedVals (Event.timelineFired t :: (dispatchAsc c rest).2)
              = t :: firedVals (dispatchAsc c rest).2 := by
            simp [firedVals]
          rw [hv, ih]
      · rw [dispatchAsc_cons_neg c t rest h, List.takeWhile_cons,
          if_neg (by simpa using h)]
        rfl

lemma dispatchAsc_no_zero (c : ℚ) (ls : List ℚ) :
    Event.timelineFired 0 ∉ (dispatchAsc c ls).2 := by
  induction ls with
  | nil => simp [dispatchAsc]
  | cons t rest ih =>
      by_cases h : c ≥ t
      · by_cases h0 : t = 0
        · subst h0
          rw [dispatchAsc_cons_zero c rest h]
          exact ih
        · rw [dispatchAsc_cons_ne c t rest h h0]
          intro hmem
          rcases List.mem_cons.mp hmem with h1 | h2
          · injection h1 with hv
            exact h0 hv.symm
          · exact ih h2
      · rw [dispatchAsc_cons_neg c t rest h]
        simp

lemma dispatchTimeline_no_zero (c : ℚ) (l : List ℚ) :
    Event.timelineFired 0 ∉ (dispatchTimeline c l).2 :=
  dispatchAsc_no_zero c l.reverse

lemma sorted_ge_reverse (l : List ℚ) (h : l.Sorted (· ≥ ·)) :
    l.reverse.Sorted (· ≤ ·) := by
  rw [List.Sorted, List.pairwise_reverse]
  exact h

lemma sorted_le_takeWhile_eq_filter (c : ℚ) (ls : List ℚ) (h : ls.Sorted (· ≤ ·)) :
    (ls.takeWhile fun t => decide (c ≥ t)) = ls.filter fun t => decide (c ≥ t) := by
  induction ls with
  | nil => rfl
  | cons t rest ih =>
      rcases List.sorted_cons.mp h with ⟨hall, hrest⟩
      by_cases hc : c ≥ t
      · rw [List.takeWhile_cons, List.filter_cons, if_pos (by simpa using hc),
          if_pos (by simpa using hc), ih hrest]
      · rw [List.takeWhile_cons, List.filter_cons, if_neg (by simpa using hc),
          if_neg (by simpa using hc)]
        symm
        exact List.filter_eq_nil_iff.mpr fun b hb => by
          simpa using fun hcb => hc (le_trans (hall b hb) hcb)

lemma sorted_le_dropWhile_eq_filter (c : ℚ) (ls : List ℚ) (h : ls.Sorted (· ≤ ·)) :
    (ls.dropWhile fun t => decide (c ≥ t)) = ls.filter fun t => decide (¬ c ≥ t) := by
  induction ls with
  | nil => rfl
  | cons t rest ih =>
      rcases List.sorted_cons.mp h with ⟨hall, hrest⟩
      by_cases hc : c ≥ t
      · rw [List.dropWhile_cons, List.filter_cons, if_pos (by simpa using hc),
          if_neg (by simpa using hc), ih hrest]
      · rw [List.dropWhile_cons, List.filter_cons, if_neg (by simpa using hc),
          if_pos (by simpa using hc)]
        congr 1
        symm
        exact List.filter_eq_self.mpr fun b hb => by
          simpa using fun hcb => hc (le_trans (hall b hb) hcb)

lemma dispatchTimeline_fst (c : ℚ) (l : List ℚ) (h : l.Sorted (· ≥ ·)) :
    (dispatchTimeline c l).1 = l.filter fun t => decide (¬ c ≥ t) := by
  show (dispatchAsc c l.reverse).1.reverse = _
  rw [dispatchAsc_fst,
    sorted_le_dropWhile_eq_filter _ _ (sorted_ge_reverse l h),
    List.filter_reverse, List.reverse_reverse]

lemma dispatchTimeline_firedVals (c : ℚ) (l : List ℚ) (h : l.Sorted (· ≥ ·)) :
    firedVals (dispatchTimeline c l).2
      = (l.reverse.filter fun t => decide (c ≥ t)).filter fun t => decide (t ≠ 0) := by
  show firedVals (dispatchAsc c l.reverse).2 = _
  rw [dispatchAsc_firedVals,
    sorted_le_takeWhile_eq_filter _ _ (sorted_ge_reverse l h)]

lemma dispatchTimeline_firedVals_mem (c : ℚ) (l : List ℚ) (h : l.Sorted (· ≥ ·))
    (t : ℚ) :
    t ∈ firedVals (dispatchTimeline c l).2 ↔ t ∈ l ∧ c ≥ t ∧ t ≠ 0 := by
  rw [dispatchTimeline_firedVals c l h]
  simp only [List.mem_filter, List.mem_reverse, decide_eq_true_eq]
  tauto

lemma dispatchTimeline_fst_mem (c : ℚ) (l : List ℚ) (h : l.Sorted (· ≥ ·)) (t : ℚ) :
    t ∈ (dispatchTimeline c l).1 ↔ t ∈ l ∧ ¬ c ≥ t := by
  rw [dispatchTimeline_fst c l h]
  simp

lemma dispatchTimeline_fst_sorted (c : ℚ) (l : List ℚ) (h : l.Sorted (· ≥ ·)) :
    (dispatchTimeline c l).1.Sorted (· ≥ ·) := by
  rw [dispatchTimeline_fst c l h]
  exact h.filter _

lemma dispatchTimeline_fst_nodup (c : ℚ) (l : List ℚ) (h : l.Sorted (· ≥ ·))
    (hnd : l.Nodup) : (dispatchTimeline c l).1.Nodup := by
  rw [dispatchTimeline_fst c l h]
  exact hnd.filter _

/-! ### Multi-tick dispatch lemmas -/

lemma firstCross_cons_zero (t c : ℚ) (cs : List ℚ) :
    firstCross t (c :: cs) = some 0 ↔ t ≤ c := by
  by_cases h : t ≤ c <;> simp [firstCross, h]

lemma firstCross_cons_succ (t c : ℚ) (cs : List ℚ) (i : ℕ) :
    firstCross t (c :: cs) = some (i + 1) ↔ ¬ t ≤ c ∧ firstCross t cs = some i := by
  by_cases h : t ≤ c <;> simp [firstCross, h]

lemma firstCross_mono (t1 t2 : ℚ) (h : t1 ≤ t2) :
    ∀ (cs : List ℚ) (i2 : ℕ), firstCross t2 cs = some i2 →
      ∃ i1, i1 ≤ i2 ∧ firstCross t1 cs = some i1 := by
  intro cs
  induction cs with
  | nil => intro i2 h2; simp [firstCross] at h2
  | cons c cs ih =>
      intro i2 h2
      by_cases hc : t1 ≤ c
      · exact ⟨0, Nat.zero_le _, by simp [firstCross, hc]⟩
      · have hc2 : ¬ t2 ≤ c := fun hcc => hc (le_trans h hcc)
        simp only [firstCross, hc2, if_false, if_neg, Option.map_eq_some'] at h2
        obtain ⟨j, hj, hji⟩ := h2
        subst hji
        obtain ⟨i1, hi1, h1⟩ := ih j hj
        exact ⟨i1 + 1, by omega, by simp [firstCross, hc, h1]⟩

lemma firedAt_nil (l : List ℚ) (i : ℕ) : firedAt l [] i = [] := by
  cases i <;> rfl

lemma firedAt_cons_zero (l : List ℚ) (c : ℚ) (cs : List ℚ) :
    firedAt l (c :: cs) 0 = firedVals (dispatchTimeline c l).2 := rfl

lemma firedAt_cons_succ (l : List ℚ) (c : ℚ) (cs : List ℚ) (i : ℕ) :
    firedAt l (c :: cs) (i + 1) = firedAt (dispatchTimeline c l).1 cs i := rfl

lemma firedAt_spec (cs : List ℚ) : ∀ (l : List ℚ), l.Sorted (· ≥ ·) →
    ∀ (i : ℕ) (t : ℚ),
      t ∈ firedAt l cs i ↔ t ∈ l ∧ t ≠ 0 ∧ firstCross t cs = some i := by
  induction cs with
  | nil =>
      intro l _ i t
      simp [firedAt_nil, firstCross]
  | cons c cs ih =>
      intro l hsort i t
      cases i with
      | zero =>
          rw [firedAt_cons_zero, dispatchTimeline_firedVals_mem c l hsort,
            firstCross_cons_zero]
          tauto
      | succ i =>
          rw [firedAt_cons_succ,
            ih (dispatchTimeline c l).1 (dispatchTimeline_fst_sorted c l hsort),
            dispatchTimeline_fst_mem c l hsort, firstCross_cons_succ]
          tauto

lemma sorted_le_nodup_sorted_lt (ls : List ℚ) (h1 : ls.Sorted (· ≤ ·))
    (h2 : ls.Nodup) : ls.Sorted (· < ·) :=
  (h1.and h2).imp fun hab => lt_of_le_of_ne hab.1 hab.2

lemma firedAt_sorted (cs : List ℚ) : ∀ (l : List ℚ), l.Sorted (· ≥ ·) →
    l.Nodup → ∀ i : ℕ, (firedAt l cs i).Sorted (· < ·) := by
  induction cs with
  | nil => intro l _ _ i; rw [firedAt_nil]; exact List.sorted_nil
  | cons c cs ih =>
      intro l hsort hnd i
      cases i with
      | zero =>
          rw [firedAt_cons_zero, dispatchTimeline_firedVals c l hsort]
          refine sorted_le_nodup_sorted_lt _ ?_ ?_
          · exact (((sorted_ge_reverse l hsort).filter _).filter _)
          · exact (((List.nodup_reverse.mpr hnd).filter _).filter _)
      | succ i =>
          rw [firedAt_cons_succ]
          exact ih _ (dispatchTimeline_fst_sorted c l hsort)
            (dispatchTimeline_fst_nodup c l hsort hnd) i

/-! ### Trace lemmas -/

lemma animatorStep_no_zero (easing exceed : ℚ → ℚ) (s : FPState) (now : ℚ) :
    Event.timelineFired 0 ∉ (animatorStep easing exceed s now).2.1 := by
  by_cases h1 : s.stopAll = true ∨ s.iterations ≥ s.privateIterations
  · unfold animatorStep
    rw [if_pos h1]
    split_ifs <;> simp
  · by_cases h2 : s.currentLength ≥ s.totalLength
    · unfold animatorStep
      rw [if_neg h1, if_pos h2]
      simp
    · unfold animatorStep
      rw [if_neg h1, if_neg h2]
      cases htl : s.timelineSorted with
      | none => simp [htl]
      | some l =>
          simp only [htl, List.mem_append]
          rintro (hc | hc)
          · exact dispatchTimeline_no_zero _ _ hc
          · simp at hc

lemma animateEntry_ok_shape (s : FPState) (n now : ℚ) (s2 : FPState)
    (evs : List Event) (b : Bool)
    (h : animateEntry s n now = Except.ok (s2, evs, b)) :
    (evs = [] ∨ evs = [Event.completion])
    ∧ s2.stopAll = s.stopAll ∧ s2.privateIterations = s.privateIterations
    ∧ s2.hasCallback = s.hasCallback := by
  unfold animateEntry at h
  split_ifs at h
  all_goals
    (simp only [Except.ok.injEq, Prod.mk.injEq] at h
     obtain ⟨h1, h2, -⟩ := h
     subst h1
     exact ⟨by rw [← h2]; simp, rfl, rfl, rfl⟩)

lemma animateEntry_no_completion (s : FPState) (n now : ℚ)
    (hn : n ≤ s.privateIterations) (hpos : 0 < s.privateIterations) :
    ∀ s2 evs b, animateEntry s n now = Except.ok (s2, evs, b) → evs = [] := by
  intro s2 evs b h
  unfold animateEntry at h
  split_ifs at h with hg hc
  · exfalso
    obtain ⟨hd, -⟩ := hc
    rcases hd with hd | hd
    exacts [absurd hpos (not_lt.mpr hd), absurd hn (not_le.mpr hd)]
  · simp only [Except.ok.injEq, Prod.mk.injEq] at h
    exact h.2.1.symm

lemma sysStep_no_zero (easing exceed : ℚ → ℚ) (sys : Sys) (i : Input) :
    Event.timelineFired 0 ∉ (sysStep easing exceed sys i).2 := by
  obtain ⟨st, pd⟩ := sys
  cases i with
  | stopCall => simp [sysStep]
  | pauseCall => simp [sysStep]
  | playCall now =>
      show Event.timelineFired 0 ∉
        (match animateEntry { st with stopAll := false }
            { st with stopAll := false }.iterations now with
         | Except.error _ => ((⟨{ st with stopAll := false }, Pending.idle⟩ : Sys), [])
         | Except.ok (s2, evs, sched) =>
            ((⟨s2, if sched then Pending.animator else Pending.idle⟩ : Sys), evs)).2
      cases he : animateEntry { st with stopAll := false }
          { st with stopAll := false }.iterations now with
      | error e => simp
      | ok r =>
          obtain ⟨s2, evs, b⟩ := r
          rcases (animateEntry_ok_shape _ _ _ _ _ _ he).1 with hv | hv <;> simp [hv]
  | tick now =>
      cases pd with
      | idle => simp [sysStep]
      | animator => exact animatorStep_no_zero easing exceed st now
      | animateCall n =>
          show Event.timelineFired 0 ∉
            (match animateEntry st n now with
             | Except.error _ => ((⟨st, Pending.idle⟩ : Sys), [])
             | Except.ok (s2, evs, sched) =>
                ((⟨s2, if sched then Pending.animator else Pending.idle⟩ : Sys), evs)).2
          cases he : animateEntry st n now with
          | error e => simp
          | ok r =>
              obtain ⟨s2, evs, b⟩ := r
              rcases (animateEntry_ok_shape _ _ _ _ _ _ he).1 with hv | hv <;> simp [hv]

lemma runSys_no_zero (easing exceed : ℚ → ℚ) :
    ∀ (ins : List Input) (sys : Sys),
      Event.timelineFired 0 ∉ runSys easing exceed sys ins := by
  intro ins
  induction ins with
  | nil => intro sys; simp [runSys]
  | cons i ins ih =>
      intro sys
      show Event.timelineFired 0 ∉
        (sysStep easing exceed sys i).2
          ++ runSys easing exceed (sysStep easing exceed sys i).1 ins
      rw [List.mem_append]
      rintro (h | h)
      · exact sysStep_no_zero easing exceed sys i h
      · exact ih _ h

lemma stopped_no_completion (easing exceed : ℚ → ℚ) :
    ∀ (ins : List Input) (sys : Sys),
      sys.st.stopAll = true →
      (∀ n, sys.pending = Pending.animateCall n →
        n ≤ sys.st.privateIterations ∧ 0 < sys.st.privateIterations) →
      (∀ now, Input.playCall now ∉ ins) →
      Event.completion ∉ runSys easing exceed sys ins := by
  intro ins
  induction ins with
  | nil => intro sys _ _ _; simp [runSys]
  | cons i ins ih =>
      intro sys hstop hpend hplay
      obtain ⟨st, pd⟩ := sys
      replace hstop : st.stopAll = true := hstop
      have hplay1 : ∀ now, Input.playCall now ∉ ins := fun now hmem =>
        hplay now (List.mem_cons_of_mem _ hmem)
      show Event.completion ∉
        (sysStep easing exceed ⟨st, pd⟩ i).2
          ++ runSys easing exceed (sysStep easing exceed ⟨st, pd⟩ i).1 ins
      cases i with
      | playCall now => exact absurd (List.mem_cons_self _ _) (hplay now)
      | stopCall =>
          rw [show sysStep easing exceed ⟨st, pd⟩ Input.stopCall
              = (⟨stop st, pd⟩, []) from rfl, List.nil_append]
          exact ih ⟨stop st, pd⟩ rfl (fun n hn => hpend n hn) hplay1
      | pauseCall =>
          rw [show sysStep easing exceed ⟨st, pd⟩ Input.pauseCall
              = (⟨pause st, pd⟩, []) from rfl, List.nil_append]
          exact ih ⟨pause st, pd⟩ rfl (fun n hn => hpend n hn) hplay1
      | tick now =>
          cases pd with
          | idle =>
              rw [show sysStep easing exceed ⟨st, Pending.idle⟩ (Input.tick now)
                  = (⟨st, Pending.idle⟩, []) from rfl, List.nil_append]
              exact ih _ hstop (fun n hn => by cases hn) hplay1
          | animator =>
              have hr : animatorStep easing exceed st now
                  = ({ st with fps := none }, [], StepNext.halt) := by
                unfold animatorStep
                rw [if_pos (Or.inl hstop), if_neg (by simp [hstop])]
              rw [show sysStep easing exceed ⟨st, Pending.animator⟩ (Input.tick now)
                  = ((⟨(animatorStep easing exceed st now).1,
                       match (animatorStep easing exceed st now).2.2 with
                         | StepNext.halt => Pending.idle
                         | StepNext.frame => Pending.animator
                         | StepNext.reanimate n => Pending.animateCall n⟩ : Sys),
                     (animatorStep easing exceed st now).2.1) from rfl, hr,
                List.nil_append]
              exact ih _ hstop (fun n hn => by cases hn) hplay1
          | animateCall n =>
              obtain ⟨hn, hpos⟩ := hpend n rfl
              show Event.completion ∉
                (match animateEntry st n now with
                 | Except.error _ => ((⟨st, Pending.idle⟩ : Sys), [])
                 | Except.ok (s2, evs, sched) =>
                    ((⟨s2, if sched then Pending.animator else Pending.idle⟩ : Sys), evs)).2
                  ++ runSys easing exceed
                    (match animateEntry st n now with
                     | Except.error _ => ((⟨st, Pending.idle⟩ : Sys), [])
                     | Except.ok (s2, evs, sched) =>
                        ((⟨s2, if sched then Pending.animator else Pending.idle⟩ : Sys), evs)).1 ins
              cases he : animateEntry st n now with
              | error e =>
                  simp only [List.nil_append]
                  exact ih _ hstop (fun m hm => by cases hm) hplay1
              | ok r =>
                  obtain ⟨s2, evs, b⟩ := r
                  have hevs : evs = [] := animateEntry_no_completion st n now hn hpos s2 evs b he
                  obtain ⟨-, hst, -, -⟩ := animateEntry_ok_shape st n now s2 evs b he
                  subst hevs
                  simp only [List.nil_append]
                  refine ih _ (hst.trans hstop) (fun m hm => ?_) hplay1
                  cases b <;> simp at hm

/-! ### Claim theorems -/

/-- C2: the claim says that with `mode='loop'` and easing `t => t*1.5`, a
raw fraction of `1.0` (eased value `1.5`) yields effective sample fraction
`1.5 % 1 = 0.5` and sampler length `0.5 * curveLength`.  The code instead
applies the overflow policy to the eased **length** (here `150`) and feeds
its result straight to `getPointAtLength`, giving `150 % 1 = 0` — not
`50` — and likewise `0` for the mid-iteration raw fraction `0.9` (eased
length `135`).  The loop policy selected by `mode: 'loop'` is the function
applied. -/
theorem c2_loop_overflow_bug :
    easeLen (fun t => t * (3 / 2)) exceedLoop 100 100 = 0
    ∧ jsMod (3 / 2) 1 = 1 / 2
    ∧ (1 / 2 : ℚ) * 100 = 50
    ∧ easeLen (fun t => t * (3 / 2)) exceedLoop 100 100 ≠ 1 / 2 * 100
    ∧ easeLen (fun t => t * (3 / 2)) exceedLoop 100 90 = 0
    ∧ exceedOf (JSVal.ok FPMode.loop) = exceedLoop := by
  refine ⟨?_, ?_, ?_, ?_, ?_, rfl⟩ <;>
    norm_num [easeLen, exceedLoop, jsMod, jsTrunc, Int.floor_eq_iff]

/-- C3 (counterexample): on an instance constructed with `iterations = 0`
(accepted by the validator), `setProgress(50)` followed by `getProgress()`
does not return `50` (the source divides by the zero target). -/
theorem c3_counterexample :
    getProgress (setProgress c3ZeroState 50) ≠ 50 := by
  norm_num [getProgress, setProgress, c3ZeroState, baseState]

/-- C3 (amended): `getProgress()` after `setProgress(p)` returns exactly
`p`, for any state — hence independent of the run state — provided the
iteration target is nonzero. -/
theorem c3_roundtrip (s : FPState) (p : ℚ) (h : s.privateIterations ≠ 0) :
    getProgress (setProgress s p) = p := by
  unfold getProgress setProgress
  field_simp
  ring

/-- C3 witness: the round-trip at `p = 50` on a stopped instance with
target `4`. -/
theorem c3_roundtrip_witness :
    getProgress (setProgress c3StoppedState 50) = 50 :=
  c3_roundtrip c3StoppedState 50 (by norm_num [c3StoppedState, baseState])

/-- C4: the claim says `getCurrentIterationProgress()` returns the
fractional part of the live counter `iterationProgress`.  The source
instead reads the fractional part of the immutable target
`#privateIterations`: with target `4` and live counter `1.5` (reached via
`setProgress(37.5)`), it returns `0` where the claim requires `50`.  The
claim's own example (`setProgress(50)`, target `4`) returns `0` under both
readings. -/
theorem c4_target_fraction_bug :
    (setProgress c4State (75 / 2)).iterations = 3 / 2
    ∧ getCurrentIterationProgress (setProgress c4State (75 / 2)) = 0
    ∧ ((setProgress c4State (75 / 2)).iterations
        - (⌊(setProgress c4State (75 / 2)).iterations⌋ : ℚ)) * 100 = 50
    ∧ getCurrentIterationProgress (setProgress c4State 50) = 0 := by
  refine ⟨?_, ?_, ?_, ?_⟩ <;>
    norm_num [getCurrentIterationProgress, setProgress, c4State, baseState,
      Int.floor_eq_iff]

/-- C7 (counterexample): `stop()` does not reset the internal iteration
target: on an instance with target `2`, the target is still `2` afterwards
(what is zeroed is the live counter `iterations`). -/
theorem c7_counterexample :
    (stop c7State).privateIterations = 2
    ∧ (2 : ℚ) ≠ 0
    ∧ (stop c7State).iterations = 0 := by
  refine ⟨?_, by norm_num, rfl⟩
  norm_num [stop, c7State, baseState]

/-- C7 (amended): `stop()` sets the halt flag and zeroes the live counter,
leaving the target untouched; a subsequent `getProgress()` is the
well-defined division `(0 / target) * 100 = 0` whenever the target is
nonzero. -/
theorem c7_stop_zeroes_counter (s : FPState) (h : s.privateIterations ≠ 0) :
    (stop s).stopAll = true
    ∧ (stop s).iterations = 0
    ∧ (stop s).privateIterations = s.privateIterations
    ∧ getProgress (stop s) = 0 := by
  refine ⟨rfl, rfl, rfl, ?_⟩
  simp [stop, getProgress]

/-- C7 witness: the amended statement on the concrete instance with
target `2` and live counter `1.3`. -/
theorem c7_stop_zeroes_counter_witness :
    (stop c7State).stopAll = true
    ∧ (stop c7State).iterations = 0
    ∧ (stop c7State).privateIterations = c7State.privateIterations
    ∧ getProgress (stop c7State) = 0 :=
  c7_stop_zeroes_counter c7State (by norm_num [c7State, baseState])

/-- C8: the claim (and the source's own `easing?:` declaration, its doc
comment, and its `easing || ((t) => t)` default) says `easing` is optional
with identity default.  The validator's unguarded
`typeof easing !== 'function'` check makes construction throw
`Invalid Config.` when `easing` is omitted; adding an easing function to
the otherwise identical configuration makes construction succeed. -/
theorem c8_easing_not_optional_bug :
    construct c8Config = Except.error "Invalid Config."
    ∧ construct { c8Config with easing := JSVal.ok (fun t => t) }
        = Except.ok ((fun t => t), exceedClamp) :=
  ⟨rfl, rfl⟩

/-- C9: the claim says the first-tick delta is the one implied by 60
ticks/second, `(curveLength/durationMs) * (1000/60)`.  The source
initializes `pixelsPerMs = (totalLength/duration) * (1/(this.fps || 60))`,
i.e. `(curveLength/durationMs) * (1/60)` — `1000×` smaller (with curve
length `60000` and duration `1000`: `1` instead of `1000`).  The measured
parts of the claim do hold: a tick with a prior timestamp sets
`pixelsPerMs = (curveLength/durationMs) * elapsedMs` and
`fps = 1000 / elapsedMs`. -/
theorem c9_first_tick_rate_bug :
    (entryState c9EntryState (animateEntry c9EntryState 0 0)).pixelsPerMs = 1
    ∧ c9EntryState.totalLength / c9EntryState.duration * (1000 / 60) = 1000
    ∧ (1 : ℚ) ≠ 1000
    ∧ (animatorStep (fun t => t) exceedClamp c9RunState 116).1.pixelsPerMs
        = c9RunState.totalLength / c9RunState.duration * 116
    ∧ (animatorStep (fun t => t) exceedClamp c9RunState 116).1.fps
        = some (1000 / 116) := by
  refine ⟨?_, by norm_num [c9EntryState, baseState], by norm_num, ?_, ?_⟩ <;>
    norm_num [entryState, animateEntry, animatorStep, c9EntryState, c9RunState,
      baseState, Int.floor_eq_iff]

/-- C1 (counterexample): a controller with timeline `0 mapped to a
callback` (pending thresholds `[0]`) runs a complete lifetime — the
completion callback fires — yet the `0` threshold's callback is never
invoked, refuting "each threshold's callback is invoked exactly once". -/
theorem c1_counterexample :
    c1CexState.timelineSorted = some [0]
    ∧ Event.timelineFired 0
        ∉ runSys (fun t => t) exceedClamp
            { st := c1CexState, pending := Pending.animator }
            [Input.tick 100, Input.tick 200]
    ∧ Event.completion
        ∈ runSys (fun t => t) exceedClamp
            { st := c1CexState, pending := Pending.animator }
            [Input.tick 100, Input.tick 200] := by
  refine ⟨rfl, ?_, ?_⟩ <;>
    norm_num [runSys, sysStep, animatorStep, dispatchTimeline, dispatchAsc,
      easeLen, c1CexState, baseState] <;>
    exact ⟨by simp, by simp⟩

/-- C6 (counterexample): with `totalIterations = 0` and **no** completion
callback, `animate` does not take the early return: it schedules the
animator frame (`entryScheduled = true`), contradicting "the call returns
without entering the running state … no frame is scheduled". -/
theorem c6_counterexample :
    c6CexState.privateIterations ≤ 0
    ∧ c6CexState.hasCallback = false
    ∧ entryScheduled (animateEntry c6CexState 0 0) = true
    ∧ entryEvents (animateEntry c6CexState 0 0) = [] := by
  refine ⟨by norm_num [c6CexState, baseState], rfl, ?_, ?_⟩ <;>
    norm_num [entryScheduled, entryEvents, animateEntry, c6CexState, baseState,
      Int.floor_eq_iff]

/-- C1 (amended): over any sequence of per-tick cumulative-percent values
applied to the constructor's descending-sorted, duplicate-free pending
list, (i) the thresholds fired at any one tick are strictly ascending,
(ii) a threshold `t` fires at tick `i` exactly when `t` is a nonzero
pending threshold and `i` is the first tick whose cumulative percent
reaches or exceeds `t` — so each threshold fires at most once, only once
the cumulative percent first reaches it (a `0` threshold never fires, and
a threshold the run never reaches never fires) — and (iii) a smaller
threshold never fires at a later tick than a larger one, regardless of the
timeline's declaration order. -/
theorem c1_thresholds (l cs : List ℚ) (hsort : l.Sorted (· ≥ ·))
    (hnodup : l.Nodup) :
    (∀ i : ℕ, (firedAt l cs i).Sorted (· < ·))
    ∧ (∀ (i : ℕ) (t : ℚ),
        t ∈ firedAt l cs i ↔ t ∈ l ∧ t ≠ 0 ∧ firstCross t cs = some i)
    ∧ (∀ (i1 i2 : ℕ) (t1 t2 : ℚ),
        t1 ∈ firedAt l cs i1 → t2 ∈ firedAt l cs i2 → t1 < t2 → i1 ≤ i2) := by
  refine ⟨firedAt_sorted cs l hsort hnodup, firedAt_spec cs l hsort, ?_⟩
  intro i1 i2 t1 t2 h1 h2 hlt
  obtain ⟨-, -, hf1⟩ := (firedAt_spec cs l hsort i1 t1).mp h1
  obtain ⟨-, -, hf2⟩ := (firedAt_spec cs l hsort i2 t2).mp h2
  obtain ⟨j, hj, hfj⟩ := firstCross_mono t1 t2 (le_of_lt hlt) cs i2 hf2
  rw [hf1] at hfj
  injection hfj with hji
  omega

/-- C1 witness: with pending thresholds `[75, 50, 25]` (descending, as the
constructor sorts them) and ticks at cumulative percents `30, 60, 100`,
threshold `50` fires at tick index `1`. -/
theorem c1_thresholds_witness :
    (50 : ℚ) ∈ firedAt [75, 50, 25] [30, 60, 100] 1 := by
  have h := c1_thresholds [75, 50, 25] [30, 60, 100]
    (by norm_num [List.sorted_cons]) (by norm_num)
  refine (h.2.1 1 50).mpr ⟨by norm_num, by norm_num, ?_⟩
  norm_num [firstCross]

/-- C5: (a) once `stop()` has been called, no continuation of the lifetime
— further animator ticks, a pending inter-iteration re-entry into
`animate`, more `stop`/`pause` calls — ever emits the completion event
(`play()` excluded, since it clears the halt flag and starts a new run);
the side condition on a pending re-entry (`n ≤ target`, `0 < target`)
holds whenever it was scheduled by the iteration-boundary branch, which
requires `iterNumber < target` at a live tick.  (b) A tick of a live
(non-stopped) run whose counter has reached the target emits exactly the
completion event when a callback is present. -/
theorem c5_stop_vs_completion :
    (∀ (easing exceed : ℚ → ℚ) (s : FPState) (p : Pending) (ins : List Input),
       (∀ n, p = Pending.animateCall n →
         n ≤ s.privateIterations ∧ 0 < s.privateIterations) →
       (∀ now, Input.playCall now ∉ ins) →
       Event.completion ∉ runSys easing exceed { st := stop s, pending := p } ins)
    ∧ (∀ (easing exceed : ℚ → ℚ) (s : FPState) (now : ℚ),
       s.stopAll = false → s.iterations ≥ s.privateIterations →
       s.hasCallback = true →
       (animatorStep easing exceed s now).2.1 = [Event.completion]) := by
  constructor
  · intro easing exceed s p ins hpend hplay
    exact stopped_no_completion easing exceed ins ⟨stop s, p⟩ rfl
      (fun n hn => hpend n hn) hplay
  · intro easing exceed s now hrun hdone hcb
    unfold animatorStep
    rw [if_pos (Or.inr hdone)]
    simp [hrun, hcb]

/-- C5 witness: (a) after `stop()` on a mid-run instance, two further
animator ticks emit no completion; (b) a live tick at the target with a
callback emits exactly the completion event. -/
theorem c5_stop_vs_completion_witness :
    Event.completion ∉ runSys (fun t => t) exceedClamp
        { st := stop c5State, pending := Pending.animator }
        [Input.tick 16, Input.tick 32]
    ∧ (animatorStep (fun t => t) exceedClamp c5DoneState 16).2.1
        = [Event.completion] :=
  ⟨c5_stop_vs_completion.1 (fun t => t) exceedClamp c5State Pending.animator
      [Input.tick 16, Input.tick 32]
      (fun n hn => by cases hn)
      (fun now hmem => by simp at hmem),
   c5_stop_vs_completion.2 (fun t => t) exceedClamp c5DoneState 16 rfl
      (by norm_num [c5DoneState, baseState]) rfl⟩

/-- C6 (amended): when `totalIterations ≤ 0` or the starting iteration
number exceeds the target (with `0 ≤ start`, as in every call the library
itself makes): if a completion callback is present, `animate` invokes it
immediately and schedules nothing; if none is present, `animate` schedules
the animator loop, whose first tick emits nothing (no render, no timeline
or completion callback) and halts. -/
theorem c6_degenerate_animate (s : FPState) (n now now2 : ℚ)
    (easing exceed : ℚ → ℚ)
    (hpath : s.hasPath = true) (helem : s.hasElement = true)
    (hdur : s.duration ≠ 0)
    (hdegen : s.privateIterations ≤ 0 ∨ n > s.privateIterations)
    (hn : 0 ≤ n) :
    (s.hasCallback = true →
      animateEntry s n now
        = Except.ok ({ s with fps := none }, [Event.completion], false))
    ∧ (s.hasCallback = false →
      animateEntry s n now
        = Except.ok (entryState s (animateEntry s n now), [], true)
      ∧ animatorStep easing exceed (entryState s (animateEntry s n now)) now2
        = ({ entryState s (animateEntry s n now) with fps := none }, [],
           StepNext.halt)) := by
  have hguard : ¬(s.hasPath = false ∨ s.hasElement = false ∨ s.duration = 0) := by
    simp [hpath, helem, hdur]
  have hge : n ≥ s.privateIterations := by
    rcases hdegen with hd | hd
    · exact le_trans hd hn
    · exact le_of_lt hd
  constructor
  · intro hcb
    unfold animateEntry
    rw [if_neg hguard, if_pos ⟨hdegen, hcb⟩]
  · intro hcb
    have hentry : animateEntry s n now
        = Except.ok (entryRunState s n now, [], true) := by
      unfold animateEntry
      rw [if_neg hguard, if_neg (by simp [hcb])]
      rfl
    have hs2 : entryState s (animateEntry s n now) = entryRunState s n now := by
      rw [hentry]; rfl
    refine ⟨by rw [hs2]; exact hentry, ?_⟩
    rw [hs2]
    unfold animatorStep
    simp only [entryRunState]
    rw [if_pos (Or.inr hge), if_neg (by simp [hcb])]

/-- C6 witness: the amended statement applied to a callback-free instance
with `iterations = 0`. -/
theorem c6_degenerate_animate_witness :
    animateEntry c6CexState 0 0
      = Except.ok (entryState c6CexState (animateEntry c6CexState 0 0), [], true)
    ∧ animatorStep (fun t => t) exceedClamp
        (entryState c6CexState (animateEntry c6CexState 0 0)) 16
      = ({ entryState c6CexState (animateEntry c6CexState 0 0) with fps := none },
         [], StepNext.halt) :=
  (c6_degenerate_animate c6CexState 0 0 16 (fun t => t) exceedClamp rfl rfl
    (by norm_num [c6CexState, baseState])
    (Or.inl (by norm_num [c6CexState, baseState])) (by norm_num)).2 rfl

/-- C10: the `0%` timeline key's callback is never invoked: no lifetime
trace ever contains the event for threshold `0`, and a dispatch at any
nonnegative cumulative percent removes `0` from the (descending-sorted)
pending list without firing it — the popped value `0` fails the truthiness
guard before the callback invocation. -/
theorem c10_zero_threshold (easing exceed : ℚ → ℚ) (sys : Sys)
    (ins : List Input) (cum : ℚ) (l : List ℚ)
    (hsort : l.Sorted (· ≥ ·)) (hcum : 0 ≤ cum) :
    Event.timelineFired 0 ∉ runSys easing exceed sys ins
    ∧ Event.timelineFired 0 ∉ (dispatchTimeline cum l).2
    ∧ (0 : ℚ) ∉ (dispatchTimeline cum l).1 := by
  refine ⟨runSys_no_zero easing exceed ins sys,
    dispatchTimeline_no_zero cum l, ?_⟩
  rw [dispatchTimeline_fst cum l hsort]
  intro hc
  rcases List.mem_filter.mp hc with ⟨-, hcond⟩
  simp only [decide_eq_true_eq] at hcond
  exact hcond hcum

/-- C10 witness: on the pending list `[75, 25, 0]` at cumulative percent
`50`, the `0` threshold does not fire and is no longer pending; no trace
of a concrete lifetime contains the `0`-threshold event. -/
theorem c10_zero_threshold_witness :
    Event.timelineFired 0 ∉ runSys (fun t => t) exceedClamp
        { st := baseState, pending := Pending.idle } [Input.tick 1]
    ∧ Event.timelineFired 0 ∉ (dispatchTimeline 50 [75, 25, 0]).2
    ∧ (0 : ℚ) ∉ (dispatchTimeline 50 [75, 25, 0]).1 :=
  c10_zero_threshold (fun t => t) exceedClamp
    { st := baseState, pending := Pending.idle } [Input.tick 1] 50 [75, 25, 0]
    (by norm_num [List.sorted_cons]) (by norm_num)

end FollowPath
